import Mathlib

/-
Verification of the fractal-matrix-client convenience layer.

The file shallowly embeds the pieces of the repository that the claims
touch: identifier parsing (fractal/matrix/utils.py), the exception
hierarchy (fractal/matrix/exceptions.py), the FractalAsyncClient wrapper
methods and the scoped MatrixClient construction and the homeserver
discovery function (fractal/matrix/async_client.py), and the legacy copy
of the discovery function kept in fractal/matrix/__init__.py.

Strings are lists of characters.  Python truthiness of optional strings,
str.split, str.islower, substring containment (the `in` operator) and the
netloc/host extraction of urllib.parse.urlparse are embedded explicitly.
Network effects are embedded as oracles: each wrapper method takes the
response the wrapped nio library would hand back and returns, besides its
result, the list of network calls it issued, so that statements such as
"fails before any network call" are the statement that this list is empty.
-/

namespace Fractal

/-- Strings of the Python source, embedded as lists of characters. -/
abbrev Str := List Char

/-- Python truthiness of an optional string: None and "" are falsy. -/
def pyTruthy : Option Str → Bool
  | none => false
  | some s => !s.isEmpty

/-- Python `a or b` on optional strings: `b` whenever `a` is falsy. -/
def pyOr (a b : Option Str) : Option Str :=
  if pyTruthy a then a else b

/-- Whether `needle` is a prefix of `hay`. -/
def listStartsWith : Str → Str → Bool
  | [], _ => true
  | _ :: _, [] => false
  | n :: ns, h :: hs => n == h && listStartsWith ns hs

/-- Python substring containment `needle in hay`. -/
def listContains (needle : Str) : Str → Bool
  | [] => needle.isEmpty
  | c :: rest => listStartsWith needle (c :: rest) || listContains needle rest

/-- Python `s.split(sep)` for a one-character separator. -/
def pySplitChar (sep : Char) : Str → List Str
  | [] => [[]]
  | c :: rest =>
    if c == sep then [] :: pySplitChar sep rest
    else
      match pySplitChar sep rest with
      | [] => [[c]]
      | h :: t => (c :: h) :: t

/-- Python `s.islower()` on ASCII text: at least one cased character and no
uppercase one, which over ASCII is: some lowercase letter occurs and no
uppercase letter occurs. -/
def pyIsLower (s : Str) : Bool :=
  s.any (fun c => c.isLower) && s.all (fun c => !c.isUpper)

/-- Python `s.lower()` on ASCII text. -/
def pyLower (s : Str) : Str := s.map Char.toLower

/-- The text that follows the first "://" of a URL, when there is one. -/
def afterSchemeSep : Str → Option Str
  | [] => none
  | c :: rest =>
    if listStartsWith (':' :: '/' :: '/' :: []) (c :: rest) then some (rest.drop 2)
    else afterSchemeSep rest

/-- Python `urlparse(url).netloc` for URLs of the `scheme://authority/...` shape the
code handles: the text between "://" and the next '/', '?' or '#'.  A URL
with no "://" has an empty netloc, as in Python. -/
def netlocOf (url : Str) : Str :=
  match afterSchemeSep url with
  | some rest => rest.takeWhile (fun c => c != '/' && c != '?' && c != '#')
  | none => []

/-- Python `urlparse(url).netloc.split(":")[0]`: the netloc with any port stripped. -/
def hostOf (url : Str) : Str :=
  (netlocOf url).takeWhile (fun c => c != ':')

/-- Python `d[k] = v` on a dict embedded as an association list: replace in
place when the key is present, append otherwise. -/
def pyDictSet (m : List (Str × Int)) (k : Str) (v : Int) : List (Str × Int) :=
  if m.any (fun p => p.1 == k) then m.map (fun p => if p.1 == k then (k, v) else p)
  else m ++ [(k, v)]

/-- The exceptions the layer raises (fractal/matrix/exceptions.py and the
bare `Exception(...)` and `KeyError(...)` raises of async_client.py).  Each
constructor carries exactly what the Python constructor receives. -/
inductive Err where
  /-- Python `Exception(msg)` -/
  | exception (msg : Str)
  /-- Exception `GetLatestSyncTokenError(message)`; `none` for the no-argument form. -/
  | getLatestSyncTokenError (message : Option Str)
  /-- Exception `WellKnownNotFoundException()` -/
  | wellKnownNotFound
  /-- Exception `UnknownDiscoveryInfoException(reason)` -/
  | unknownDiscoveryInfo (reason : Str)
  /-- Exception `InvalidMatrixIdException` with text built from the identifier,
  carrying the offending identifier. -/
  | invalidMatrixId (matrix_id : Str)
  /-- Python `KeyError(msg)` -/
  | keyError (msg : Str)
  /-- Python `IndexError` from an out-of-range list index. -/
  | indexError
  /-- Marker for `get_homeserver_for_matrix_id` with an empty nominal homeserver URL
  (the MATRIX_HOMESERVER_URL variable set to the empty string): the scoped
  client construction then either raises KeyError or re-enters discovery
  from `MatrixClient.__aenter__`; the corner is marked by this constructor
  and exercised by no claim. -/
  | emptyNominalUrl
deriving DecidableEq

/-- The message text of each exception as exceptions.py formats it. -/
def errText : Err → Str
  | .exception m => m
  | .getLatestSyncTokenError none => "Failed to get latest sync token".data
  | .getLatestSyncTokenError (some m) => "Failed to get latest sync token: ".data ++ m
  | .wellKnownNotFound => "Your Matrix server's .well-known/matrix/client was not found.".data
  | .unknownDiscoveryInfo r => "Unknown Error: ".data ++ r
  | .invalidMatrixId m => m ++ " is not a valid Matrix ID.".data
  | .keyError m => m
  | .indexError => "list index out of range".data
  | .emptyNominalUrl => []

/-- One network request issued through the wrapped nio library or aiohttp. -/
inductive NetCall where
  | discoveryInfo (nominalUrl : Str)
  | roomMessages (roomId start : Str) (limit : Nat) (back : Bool)
  | roomInvite (roomId userId : Str)
  | roomGetStateEvent (roomId eventType : Str)
  | roomPutState (roomId eventType : Str) (users : List (Str × Int))
  | roomSend (roomId : Str)
  | joinCall (roomId : Str)
  | syncCall
  | registerCall (username : Str)
  | overrideRatelimit (matrixId : Str)
deriving DecidableEq

/-- What `AsyncClient.discovery_info()` hands back: a
`DiscoveryInfoResponse` carrying `homeserver_url`, or a
`DiscoveryInfoError` whose `transport_response.reason` is the failure
reason text. -/
inductive DiscoveryResult where
  | ok (homeserver_url : Str)
  | error (reason : Str)
deriving DecidableEq

/-- The discovery response as the legacy fractal/matrix/__init__.py reads
it: that file branches on `transport_response.ok` instead of the
response's type, so the oracle carries the ok flag, the reason text and
the homeserver URL together. -/
structure LegacyDiscovery where
  ok : Bool
  reason : Str
  homeserver_url : Str
deriving DecidableEq

/-- What `room_messages` hands back: a success whose `start` field is the
pagination cursor, or a `RoomMessagesError` carrying a message. -/
inductive RoomMessagesResult where
  | ok (start : Str)
  | error (message : Str)
deriving DecidableEq

/-- The outcome of `room_send` inside send_message's try block: the
expected `RoomSendResponse`, some other (error) response object, or a
raised exception — the code logs the latter two and raises neither. -/
inductive RoomSendOutcome where
  | ok
  | errorResp (message : Str)
  | raised (message : Str)
deriving DecidableEq

/-- A wrapped call that returns either its success response or a typed
error response carrying a message (`join`, `room_invite`,
`room_put_state`). -/
inductive SimpleResult where
  | ok
  | error (message : Str)
deriving DecidableEq

/-- What `room_get_state_event(room_id, "m.room.power_levels")` hands
back: a `RoomGetStateEventError` (which has a `message` attribute), a
success response whose content carries an "errcode" key (the code then
raises `content["error"]`), or a success whose content holds the
power-level `users` dict. -/
inductive StateEventResult where
  | error (message : Str)
  | okWithErrcode (error_field : Str)
  | ok (users : List (Str × Int))
deriving DecidableEq

/-- What nio's `register_with_token` hands back: a `RegisterErrorResponse`
carrying a message, or a success carrying the new user's access token. -/
inductive RegisterResult where
  | ok (access_token : Str)
  | error (message : Str)
deriving DecidableEq

/-- What `sync` hands back: a `SyncError` carrying a message, or a success
whose rooms.invite dictionary is embedded as the list of invited room ids
and which leaves a fresh `next_batch` cursor on the client. -/
inductive SyncResult where
  | ok (invite : List Str) (newNextBatch : Option Str)
  | error (message : Str)
deriving DecidableEq

/-- The mutable fields of a FractalAsyncClient handle the claims read or
write: the access token, the configured default room and the sync
cursor. -/
structure ClientState where
  access_token : Str
  room_id : Option Str
  next_batch : Option Str
deriving DecidableEq

/-- Function `parse_matrix_id` (fractal/matrix/utils.py): match the identifier
against `^@([^:]+):([^:]+)$` and return the two groups, raising
`InvalidMatrixIdException(f"{matrix_id} is not a valid Matrix ID.")` when
the pattern does not match.  The regex matches exactly the strings of the
form '@', a non-empty colon-free run, ':', a non-empty colon-free run to
the end ([^:] also matches a newline, so re's end-anchor subtlety adds no
further strings); the first group is the maximal colon-free run after the
'@'. -/
def parse_matrix_id : Str → Except Err (Str × Str)
  | [] => .error (.invalidMatrixId [])
  | c₀ :: rest =>
    if c₀ == '@' then
      let a := rest.takeWhile (fun c => c != ':')
      match rest.dropWhile (fun c => c != ':') with
      | c :: b =>
        if c == ':' && !a.isEmpty && !b.isEmpty && b.all (fun x => x != ':') then
          .ok (a, b)
        else .error (.invalidMatrixId (c₀ :: rest))
      | [] => .error (.invalidMatrixId (c₀ :: rest))
    else .error (.invalidMatrixId (c₀ :: rest))

/-- The identifier pattern exactly as claim C8 words it: one leading '@'
and no second one right after it, then exactly one ':' separating two
non-empty colon-free parts.  Spec-side definition, written from the
claim's words for comparison against `parse_matrix_id`. -/
def specIdPatternMatches : Str → Bool
  | [] => false
  | c₀ :: rest =>
    c₀ == '@'
    && (match rest with
        | [] => false
        | c₁ :: _ => c₁ != '@')
    && !(rest.takeWhile (fun c => c != ':')).isEmpty
    && (match rest.dropWhile (fun c => c != ':') with
        | _ :: b => !b.isEmpty && b.all (fun c => c != ':')
        | [] => false)

/-- Method `FractalAsyncClient.send_message`: builds the message content, calls
`room_send` inside a try block, and only logs — it raises nothing and
returns None on every outcome, logging at error severity when the
response is not a `RoomSendResponse` or when an exception was raised.
Returns the (always successful) result, the issued calls and whether an
error was logged. -/
def send_message (room : Str) (outcome : RoomSendOutcome) :
    Except Err Unit × List NetCall × Bool :=
  match outcome with
  | .ok => (.ok (), [NetCall.roomSend room], false)
  | .errorResp _ => (.ok (), [NetCall.roomSend room], true)
  | .raised _ => (.ok (), [NetCall.roomSend room], true)

/-- Method `FractalAsyncClient.get_latest_sync_token`: take the argument room id
or, when it is falsy, the client's configured room; raise
`GetLatestSyncTokenError("No room id provided")` when both are falsy,
before any request; otherwise request one message backward from the empty
cursor and return `res.start`, translating a `RoomMessagesError` into
`GetLatestSyncTokenError(res.message)`. -/
def get_latest_sync_token (st : ClientState) (room_id : Option Str)
    (resp : RoomMessagesResult) : Except Err Str × List NetCall :=
  match pyOr room_id st.room_id with
  | none => (.error (.getLatestSyncTokenError (some "No room id provided".data)), [])
  | some r =>
    if r.isEmpty then
      (.error (.getLatestSyncTokenError (some "No room id provided".data)), [])
    else
      match resp with
      | .ok start => (.ok start, [NetCall.roomMessages r [] 1 true])
      | .error m =>
        (.error (.getLatestSyncTokenError (some m)), [NetCall.roomMessages r [] 1 true])

/-- Method `FractalAsyncClient.invite`: reject non-admin invites outright; reject
when `user_id.split("@")[1]` (the text between the first and second '@',
or everything after the first '@' when there is no second) is not
Python-lowercase; then invite, fetch the room's power levels, set the
target's level to 100 and write the state back, raising the library's
message at each failing step.  A user_id with no '@' at all makes
`split("@")[1]` raise IndexError. -/
def invite (user_id room_id : Str) (admin : Bool) (inviteResp : SimpleResult)
    (stateResp : StateEventResult) (putResp : SimpleResult) :
    Except Err Unit × List NetCall :=
  if !admin then
    (.error (.exception "FIXME: Only admin invites are supported for now.".data), [])
  else
    match (pySplitChar '@' user_id).get? 1 with
    | none => (.error .indexError, [])
    | some seg =>
      if !pyIsLower seg then
        (.error (.exception "Matrix ids must be lowercase.".data), [])
      else
        let calls₁ := [NetCall.roomInvite room_id user_id]
        match inviteResp with
        | .error m => (.error (.exception m), calls₁)
        | .ok =>
          let calls₂ := calls₁ ++ [NetCall.roomGetStateEvent room_id "m.room.power_levels".data]
          match stateResp with
          | .error m => (.error (.exception m), calls₂)
          | .okWithErrcode e => (.error (.exception e), calls₂)
          | .ok users =>
            let users' := pyDictSet users user_id 100
            let calls₃ := calls₂ ++ [NetCall.roomPutState room_id "m.room.power_levels".data users']
            match putResp with
            | .error m => (.error (.exception m), calls₃)
            | .ok => (.ok (), calls₃)

/-- Method `FractalAsyncClient.get_room_invites`: remember `next_batch`, sync
with the invite filter (the sync replaces the client's cursor), raise the
sync error's message on failure (the cursor is then left as the sync left
it), and on success restore the remembered cursor and return the invite
dictionary. -/
def get_room_invites (st : ClientState) (resp : SyncResult) :
    Except Err (List Str × ClientState) × List NetCall :=
  let prev_next_batch := st.next_batch
  match resp with
  | .error m => (.error (.exception m), [NetCall.syncCall])
  | .ok invite newNextBatch =>
    let stSynced : ClientState := { st with next_batch := newNextBatch }
    (.ok (invite, { stSynced with next_batch := prev_next_batch }), [NetCall.syncCall])

/-- Method `FractalAsyncClient.join_room`: join and raise the `JoinError`'s
message on failure. -/
def join_room (room_id : Str) (resp : SimpleResult) :
    Except Err Unit × List NetCall :=
  match resp with
  | .ok => (.ok (), [NetCall.joinCall room_id])
  | .error m => (.error (.exception m), [NetCall.joinCall room_id])

/-- Method `FractalAsyncClient.disable_ratelimiting`: POST the override endpoint;
any HTTP-OK response succeeds, anything else raises with the status and
body in the message. -/
def disable_ratelimiting (matrix_id : Str) (respOk : Bool) (status : Nat) (body : Str) :
    Except Err Unit × List NetCall :=
  if respOk then (.ok (), [NetCall.overrideRatelimit matrix_id])
  else
    (.error (.exception ("Failed to override rate limit. Error Response status ".data
      ++ (Nat.repr status).data ++ ": ".data ++ body)), [NetCall.overrideRatelimit matrix_id])

/-- Method `FractalAsyncClient.register_with_token`: lowercase the identifier,
parse out the username (which can raise InvalidMatrixIdException), save
the handle's access token, register through the wrapped library — which
on success replaces the handle's access token with the new user's (the
code's own comment records this side effect) — raise the library's
message on a `RegisterErrorResponse`, restore the saved token, optionally
disable rate limiting for the new user, and return the new user's access
token.  The returned state is the handle after the call. -/
def register_with_token (st : ClientState) (matrix_id : Str)
    (disable_rl : Bool) (regResp : RegisterResult)
    (rlOk : Bool) (rlStatus : Nat) (rlBody : Str) :
    Except Err (Str × ClientState) × List NetCall :=
  let mid := pyLower matrix_id
  match parse_matrix_id mid with
  | .error e => (.error e, [])
  | .ok (username, _) =>
    let access_token := st.access_token
    match regResp with
    | .error m => (.error (.exception m), [NetCall.registerCall username])
    | .ok newTok =>
      let stMut : ClientState := { st with access_token := newTok }
      let stRestored : ClientState := { stMut with access_token := access_token }
      if disable_rl then
        match disable_ratelimiting mid rlOk rlStatus rlBody with
        | (.error e, rlCalls) => (.error e, NetCall.registerCall username :: rlCalls)
        | (.ok _, rlCalls) => (.ok (newTok, stRestored), NetCall.registerCall username :: rlCalls)
      else (.ok (newTok, stRestored), [NetCall.registerCall username])

/-- What `MatrixClient.__init__` (async_client.py) resolves before any
network activity can happen. -/
structure MatrixClientCfg where
  homeserver_url : Option Str
  matrix_id : Option Str
  access_token : Option Str
  room_id : Option Str
  max_timeouts : Nat
deriving DecidableEq

/-- The environment variables `MatrixClient.__init__` reads. -/
structure Env where
  matrixHomeserverUrl : Option Str
  matrixId : Option Str
  matrixAccessToken : Option Str
deriving DecidableEq

/-- The KeyError message of `MatrixClient.__init__`; the Python source
carries a backslash line continuation, so the text keeps the following
line's four-space indent. -/
def matrixClientKeyErrorMsg : Str :=
  ("Environment variable MATRIX_HOMESERVER_URL and MATRIX_ID must be set if"
    ++ "    not passed explicitly to the MatrixClient context manager decorator.").data

/-- Constructor `MatrixClient.__init__` (async_client.py): resolve each field as the
explicit argument when it is truthy, else the environment variable, and
raise KeyError when neither a homeserver URL nor a matrix id resolved to
a truthy value.  The constructor performs no network activity: the
embedding takes no response oracle at all. -/
def MatrixClient_init (homeserver_url access_token matrix_id room_id : Option Str)
    (max_timeouts : Nat) (env : Env) : Except Err MatrixClientCfg :=
  let hs := pyOr homeserver_url env.matrixHomeserverUrl
  let mid := pyOr matrix_id env.matrixId
  let tok := pyOr access_token env.matrixAccessToken
  if !pyTruthy hs && !pyTruthy mid then .error (.keyError matrixClientKeyErrorMsg)
  else .ok ⟨hs, mid, tok, room_id, max_timeouts⟩

/-- The nominal homeserver URL `get_homeserver_for_matrix_id`
(async_client.py) derives before issuing discovery: the
MATRIX_HOMESERVER_URL variable or the loopback default when the
identifier contains "localhost", else `https://` plus the identifier's
domain part (parsing can raise InvalidMatrixIdException). -/
def nominalHomeserverUrl (matrix_id : Str) (envUrl : Option Str) : Except Err Str :=
  if listContains "localhost".data matrix_id then
    .ok (envUrl.getD "http://localhost:8008".data)
  else
    match parse_matrix_id matrix_id with
    | .error e => .error e
    | .ok (_, homeserver_host) => .ok ("https://".data ++ homeserver_host)

/-- Function `get_homeserver_for_matrix_id` (async_client.py, the version the tests
and `MatrixClient.__aenter__` use): derive the nominal URL, strip its
netloc to a host, issue one `discovery_info` request through a scoped
MatrixClient; on a `DiscoveryInfoError` raise
`WellKnownNotFoundException` for the reason "Not Found" and
`UnknownDiscoveryInfoException(reason)` for any other reason; on success
return the discovered URL together with `domain_apex_changed`, which is
false exactly when the nominal host occurs as a substring of the
discovered URL's netloc (the Python `in` operator).  An empty nominal URL
(MATRIX_HOMESERVER_URL set to "") would make the scoped construction
raise KeyError or re-enter discovery; that corner is marked
`Err.emptyNominalUrl` and exercised by no claim. -/
def get_homeserver_for_matrix_id (matrix_id : Str) (envUrl : Option Str)
    (disc : DiscoveryResult) : Except Err (Str × Bool) × List NetCall :=
  match nominalHomeserverUrl matrix_id envUrl with
  | .error e => (.error e, [])
  | .ok homeserver_url =>
    if homeserver_url.isEmpty then (.error .emptyNominalUrl, [])
    else
      let parsed_homeserver := hostOf homeserver_url
      let calls := [NetCall.discoveryInfo homeserver_url]
      match disc with
      | .error reason =>
        if reason = "Not Found".data then (.error .wellKnownNotFound, calls)
        else (.error (.unknownDiscoveryInfo reason), calls)
      | .ok url =>
        (.ok (url, !listContains parsed_homeserver (netlocOf url)), calls)

/-- The legacy `get_homeserver_for_matrix_id` kept in
fractal/matrix/__init__.py: an identifier containing "localhost" returns
`http://localhost:8008` at once, with no discovery request and no
environment override; otherwise discovery is issued against `https://`
plus the domain and the branch is on `transport_response.ok`, raising
`WellKnownNotFoundException` for the reason "Not Found" and otherwise
`UnknownDiscoveryInfoException` with a longer text around the reason;
only the URL is returned, with no apex flag. -/
def legacy_get_homeserver_for_matrix_id (matrix_id : Str) (disc : LegacyDiscovery) :
    Except Err Str × List NetCall :=
  if listContains "localhost".data matrix_id then
    (.ok "http://localhost:8008".data, [])
  else
    match parse_matrix_id matrix_id with
    | .error e => (.error e, [])
    | .ok (_, homeserver_host) =>
      let homeserver_url := "https://".data ++ homeserver_host
      let calls := [NetCall.discoveryInfo homeserver_url]
      if !disc.ok then
        if disc.reason = "Not Found".data then (.error .wellKnownNotFound, calls)
        else
          (.error (.unknownDiscoveryInfo
            ("Failed to get homeserver for MatrixID: ".data ++ disc.reason)), calls)
      else (.ok disc.homeserver_url, calls)

/-- takeWhile walks through a first block that satisfies the predicate. -/
theorem takeWhile_append_all {α : Type} {p : α → Bool} (l₁ l₂ : List α)
    (h : l₁.all p = true) :
    (l₁ ++ l₂).takeWhile p = l₁ ++ l₂.takeWhile p := by
  induction l₁ with
  | nil => rfl
  | cons c t ih =>
    simp only [List.all_cons, Bool.and_eq_true] at h
    simp [List.takeWhile_cons, h.1, ih h.2]

/-- dropWhile walks through a first block that satisfies the predicate. -/
theorem dropWhile_append_all {α : Type} {p : α → Bool} (l₁ l₂ : List α)
    (h : l₁.all p = true) :
    (l₁ ++ l₂).dropWhile p = l₂.dropWhile p := by
  induction l₁ with
  | nil => rfl
  | cons c t ih =>
    simp only [List.all_cons, Bool.and_eq_true] at h
    simp [List.dropWhile_cons, h.1, ih h.2]

/-- Every element takeWhile keeps satisfies the predicate. -/
theorem all_takeWhile {α : Type} (p : α → Bool) (l : List α) :
    (l.takeWhile p).all p = true := by
  induction l with
  | nil => rfl
  | cons c t ih =>
    by_cases hc : p c = true
    · simp [List.takeWhile_cons, hc, ih]
    · simp [List.takeWhile_cons, Bool.eq_false_iff.mpr hc]

/-- An element that fails the predicate falsifies `all`. -/
theorem all_eq_false_of_mem {α : Type} {p : α → Bool} {c : α} {l : List α}
    (hm : c ∈ l) (hp : p c = false) : l.all p = false := by
  cases hall : l.all p with
  | false => rfl
  | true =>
    have := List.all_eq_true.mp hall c hm
    rw [hp] at this
    cases this

/-- A list starts with the block takeWhile extracts from it. -/
theorem startsWith_takeWhile (p : Char → Bool) (l : Str) :
    listStartsWith (l.takeWhile p) l = true := by
  induction l with
  | nil => rfl
  | cons c t ih =>
    by_cases hc : p c = true
    · simp [List.takeWhile_cons, hc, listStartsWith, ih]
    · simp [List.takeWhile_cons, Bool.eq_false_iff.mpr hc, listStartsWith]

/-- A prefix is in particular a substring. -/
theorem listContains_of_startsWith {n h : Str}
    (hs : listStartsWith n h = true) : listContains n h = true := by
  cases h with
  | nil =>
    cases n with
    | nil => rfl
    | cons c t => cases hs
  | cons c t => simp [listContains, hs]

/-- The first segment of a Python split is the maximal separator-free
prefix. -/
theorem pySplitChar_get_zero (sep : Char) (l : Str) :
    (pySplitChar sep l).get? 0 = some (l.takeWhile (fun c => c != sep)) := by
  induction l with
  | nil => rfl
  | cons c rest ih =>
    by_cases hc : c = sep
    · subst hc
      simp [pySplitChar, List.takeWhile_cons]
    · have hbe : (c == sep) = false := by simp [hc]
      have hne : (c != sep) = true := by simp [hc]
      cases hsp : pySplitChar sep rest with
      | nil => rw [hsp] at ih; cases ih
      | cons hd tl =>
        rw [hsp] at ih
        simp only [List.get?, Option.some.injEq] at ih
        simp [pySplitChar, hbe, hsp, List.takeWhile_cons, hne, ih]

/-- Claim C1, counterexample: for the identifier `@user:localhost` (with no
MATRIX_HOMESERVER_URL override) the current `get_homeserver_for_matrix_id`
does issue a well-known discovery request (against the loopback URL) and
returns whatever that discovery reports — here `http://synapse:8008`, not
the loopback URL — so the claim's "returns http://localhost:8008 without
issuing any well-known discovery request" is false on the code. -/
theorem c1_localhost_discovery_counterexample :
    get_homeserver_for_matrix_id "@user:localhost".data none
        (DiscoveryResult.ok "http://synapse:8008".data)
      = (Except.ok ("http://synapse:8008".data, true),
         [NetCall.discoveryInfo "http://localhost:8008".data]) := rfl

/-- Claim C1, amended: for every identifier containing "localhost", the
current `get_homeserver_for_matrix_id` uses `http://localhost:8008` (or the
MATRIX_HOMESERVER_URL override) as the nominal URL without parsing the
identifier, but it still issues exactly one well-known discovery request
against that nominal URL and, on success, returns the discovered
homeserver URL; only the legacy copy in fractal/matrix/__init__.py
short-circuits, returning `http://localhost:8008` with no discovery
request (and without honouring the override). -/
theorem c1_localhost_discovery_amended (matrix_id : Str) (envUrl : Option Str)
    (disc : DiscoveryResult)
    (hloc : listContains "localhost".data matrix_id = true)
    (henv : envUrl ≠ some []) :
    nominalHomeserverUrl matrix_id envUrl
        = .ok (envUrl.getD "http://localhost:8008".data)
    ∧ (get_homeserver_for_matrix_id matrix_id envUrl disc).2
        = [NetCall.discoveryInfo (envUrl.getD "http://localhost:8008".data)]
    ∧ (∀ url, disc = .ok url →
        ∃ b, (get_homeserver_for_matrix_id matrix_id envUrl disc).1 = .ok (url, b))
    ∧ (∀ ld, legacy_get_homeserver_for_matrix_id matrix_id ld
        = (.ok "http://localhost:8008".data, [])) := by
  have hn : nominalHomeserverUrl matrix_id envUrl
      = .ok (envUrl.getD "http://localhost:8008".data) := by
    unfold nominalHomeserverUrl
    simp [hloc]
  have hne : (envUrl.getD "http://localhost:8008".data).isEmpty = false := by
    cases envUrl with
    | none => rfl
    | some s =>
      cases s with
      | nil => exact absurd rfl henv
      | cons c t => rfl
  refine ⟨hn, ?_, ?_, ?_⟩
  · unfold get_homeserver_for_matrix_id
    rw [hn]
    simp only [hne]
    cases disc with
    | ok url => simp
    | error reason =>
      by_cases hr : reason = "Not Found".data
      · simp [hr]
      · simp [hr]
  · intro url hd
    subst hd
    unfold get_homeserver_for_matrix_id
    rw [hn]
    simp [hne]
  · intro ld
    unfold legacy_get_homeserver_for_matrix_id
    simp [hloc]

/-- Claim C1, witness for the amended theorem at the identifier
`@user:localhost` with no environment override. -/
theorem c1_localhost_discovery_amended_witness :
    (get_homeserver_for_matrix_id "@user:localhost".data none
        (DiscoveryResult.ok "http://localhost:8008".data)).2
      = [NetCall.discoveryInfo ((none : Option Str).getD "http://localhost:8008".data)] :=
  (c1_localhost_discovery_amended "@user:localhost".data none
    (DiscoveryResult.ok "http://localhost:8008".data) (by decide) (by decide)).2.1

/-- Claim C2: whenever the nominal homeserver URL resolves (so the
discovery request is issued) and the discovery request fails,
`get_homeserver_for_matrix_id` raises WellKnownNotFoundException exactly
when the transport reason is "Not Found" and otherwise raises
UnknownDiscoveryInfoException carrying the reason text (its message is
"Unknown Error: " followed by the reason); it returns no URL in either
case. -/
theorem c2_discovery_failure_raises (matrix_id : Str) (envUrl : Option Str)
    (reason nominal : Str)
    (hn : nominalHomeserverUrl matrix_id envUrl = .ok nominal)
    (hne : nominal ≠ []) :
    ((reason = "Not Found".data →
        (get_homeserver_for_matrix_id matrix_id envUrl (.error reason)).1
          = .error Err.wellKnownNotFound)
      ∧ (reason ≠ "Not Found".data →
        (get_homeserver_for_matrix_id matrix_id envUrl (.error reason)).1
          = .error (Err.unknownDiscoveryInfo reason)))
    ∧ (∀ p, (get_homeserver_for_matrix_id matrix_id envUrl (.error reason)).1 ≠ .ok p)
    ∧ errText (Err.unknownDiscoveryInfo reason) = "Unknown Error: ".data ++ reason := by
  have hemp : nominal.isEmpty = false := by
    cases nominal with
    | nil => exact absurd rfl hne
    | cons c t => rfl
  have hbody : get_homeserver_for_matrix_id matrix_id envUrl (.error reason)
      = (if reason = "Not Found".data then (.error Err.wellKnownNotFound,
          [NetCall.discoveryInfo nominal])
         else (.error (Err.unknownDiscoveryInfo reason),
          [NetCall.discoveryInfo nominal])) := by
    unfold get_homeserver_for_matrix_id
    rw [hn]
    simp only [hemp]
    rfl
  refine ⟨⟨?_, ?_⟩, ?_, rfl⟩
  · intro hr
    rw [hbody, if_pos hr]
  · intro hr
    rw [hbody, if_neg hr]
  · intro p
    rw [hbody]
    by_cases hr : reason = "Not Found".data
    · rw [if_pos hr]
      exact fun hcontra => Except.noConfusion hcontra
    · rw [if_neg hr]
      exact fun hcontra => Except.noConfusion hcontra

/-- Claim C2, witness at the identifier `@user:matrix.org` and the reason
"Error": discovery failure raises UnknownDiscoveryInfoException carrying
the reason. -/
theorem c2_discovery_failure_raises_witness :
    (get_homeserver_for_matrix_id "@user:matrix.org".data none (.error "Error".data)).1
      = .error (Err.unknownDiscoveryInfo "Error".data) :=
  (c2_discovery_failure_raises "@user:matrix.org".data none "Error".data
    "https://matrix.org".data rfl (by decide)).1.2 (by decide)

/-- Claim C3, counterexample: for `@user:matrix.org` resolving to
`https://matrix-client.matrix.org` the resolved host differs from the
nominal host `matrix.org`, yet the code returns
`domain_apex_changed = false`, because it tests substring containment of
the nominal host in the resolved netloc rather than host equality. -/
theorem c3_domain_apex_counterexample :
    (get_homeserver_for_matrix_id "@user:matrix.org".data none
        (DiscoveryResult.ok "https://matrix-client.matrix.org".data)).1
      = .ok ("https://matrix-client.matrix.org".data, false)
    ∧ hostOf "https://matrix-client.matrix.org".data
        ≠ hostOf "https://matrix.org".data :=
  ⟨rfl, by decide⟩

/-- Claim C3, amended: on discovery success the returned
`domain_apex_changed` flag is false exactly when the nominal host (the
nominal URL's netloc up to any port) occurs as a substring of the
resolved URL's netloc — in particular a resolved host identical to the
nominal host gives false, but so does any resolved netloc merely
containing the nominal host, such as a subdomain of the same apex. -/
theorem c3_domain_apex_amended (matrix_id : Str) (envUrl : Option Str)
    (url nominal : Str) (b : Bool)
    (hn : nominalHomeserverUrl matrix_id envUrl = .ok nominal)
    (h : (get_homeserver_for_matrix_id matrix_id envUrl (.ok url)).1 = .ok (url, b)) :
    (b = false ↔ listContains (hostOf nominal) (netlocOf url) = true)
    ∧ (hostOf url = hostOf nominal → b = false) := by
  have hb : b = !listContains (hostOf nominal) (netlocOf url) := by
    unfold get_homeserver_for_matrix_id at h
    rw [hn] at h
    cases hemp : nominal.isEmpty with
    | true => simp [hemp] at h
    | false =>
      simp [hemp] at h
      rw [h]
      simp
  subst hb
  constructor
  · cases listContains (hostOf nominal) (netlocOf url) <;> simp
  · intro heq
    have : listContains (hostOf nominal) (netlocOf url) = true := by
      rw [← heq]
      exact listContains_of_startsWith
        (startsWith_takeWhile (fun c => c != ':') (netlocOf url))
    rw [this]
    rfl

/-- Claim C3, witness for the amended theorem: `@user:matrix.org`
resolving to `https://matrix.org` itself keeps the flag false. -/
theorem c3_domain_apex_amended_witness :
    (false = false
      ↔ listContains (hostOf "https://matrix.org".data)
          (netlocOf "https://matrix.org".data) = true) :=
  (c3_domain_apex_amended "@user:matrix.org".data none "https://matrix.org".data
    "https://matrix.org".data false rfl rfl).1

/-- Claim C4, counterexample: `send_message` receives the library's error
variant from `room_send` yet raises nothing — it logs the error and
returns success — so "every call ... raises a failure carrying the
library's message string" is false for send_message. -/
theorem c4_error_translation_counterexample :
    send_message "!room:localhost".data
        (RoomSendOutcome.errorResp "failed to send".data)
      = (Except.ok (), [NetCall.roomSend "!room:localhost".data], true) := rfl

/-- Claim C4, amended: `join_room`, `get_latest_sync_token` and `invite`
raise a failure carrying the library's message string when the wrapped
call returns its typed error variant, but `send_message` is an exception:
it logs the error (at error severity) and returns None on every outcome,
error variants and raised exceptions included. -/
theorem c4_error_translation_amended :
    (∀ room outcome, (send_message room outcome).1 = Except.ok ())
    ∧ (∀ room m, (join_room room (SimpleResult.error m)).1
        = Except.error (Err.exception m))
    ∧ (∀ st c r m,
        (get_latest_sync_token st (some (c :: r)) (RoomMessagesResult.error m)).1
          = Except.error (Err.getLatestSyncTokenError (some m)))
    ∧ (∀ room m stateResp putResp,
        (invite "@user:localhost".data room true (SimpleResult.error m)
            stateResp putResp).1
          = Except.error (Err.exception m)) := by
  refine ⟨?_, ?_, ?_, ?_⟩
  · intro room outcome
    cases outcome <;> rfl
  · intro room m
    rfl
  · intro st c r m
    rfl
  · intro room m stateResp putResp
    rfl

/-- Claim C5: `get_latest_sync_token` with both the argument room id and
the configured room falsy raises GetLatestSyncTokenError with the message
"No room id provided" and issues no network request; with a truthy room
id it issues exactly one `room_messages` request for one message backward
from the empty cursor, returns `res.start` on success, and translates a
RoomMessagesError into a GetLatestSyncTokenError carrying the library's
message (formatted "Failed to get latest sync token: " plus the
message). -/
theorem c5_get_latest_sync_token_contract (st : ClientState)
    (room_id : Option Str) (resp : RoomMessagesResult) :
    (pyOr room_id st.room_id = none →
      get_latest_sync_token st room_id resp
        = (.error (.getLatestSyncTokenError (some "No room id provided".data)), []))
    ∧ (∀ r, pyOr room_id st.room_id = some r → r.isEmpty = true →
      get_latest_sync_token st room_id resp
        = (.error (.getLatestSyncTokenError (some "No room id provided".data)), []))
    ∧ (∀ r, pyOr room_id st.room_id = some r → r.isEmpty = false →
      (get_latest_sync_token st room_id resp).2 = [NetCall.roomMessages r [] 1 true]
      ∧ (∀ s, resp = .ok s →
          (get_latest_sync_token st room_id resp).1 = .ok s)
      ∧ (∀ m, resp = .error m →
          (get_latest_sync_token st room_id resp).1
            = .error (.getLatestSyncTokenError (some m))
          ∧ errText (.getLatestSyncTokenError (some m))
            = "Failed to get latest sync token: ".data ++ m)) := by
  refine ⟨?_, ?_, ?_⟩
  · intro h
    unfold get_latest_sync_token
    rw [h]
  · intro r h hre
    unfold get_latest_sync_token
    rw [h]
    simp [hre]
  · intro r h hre
    unfold get_latest_sync_token
    rw [h]
    simp only [hre, Bool.false_eq_true, if_false]
    refine ⟨?_, ?_, ?_⟩
    · cases resp <;> rfl
    · intro s hs
      subst hs
      rfl
    · intro m hm
      subst hm
      exact ⟨rfl, rfl⟩

/-- Claim C6: whenever `register_with_token` returns successfully, the
access token on the client handle afterwards equals the access token
before the call (the replacement the wrapped registration performs is
explicitly undone), and the returned value is the access token the
registration response carried for the new user. -/
theorem c6_register_restores_access_token (st : ClientState) (matrix_id : Str)
    (disable_rl : Bool) (regResp : RegisterResult) (rlOk : Bool)
    (rlStatus : Nat) (rlBody : Str) (tok : Str) (st' : ClientState)
    (h : (register_with_token st matrix_id disable_rl regResp rlOk rlStatus rlBody).1
      = .ok (tok, st')) :
    st'.access_token = st.access_token ∧ regResp = .ok tok := by
  unfold register_with_token at h
  cases hp : parse_matrix_id (pyLower matrix_id) with
  | error e =>
    simp [hp] at h
  | ok p =>
    obtain ⟨username, dom⟩ := p
    simp only [hp] at h
    cases regResp with
    | error m => simp at h
    | ok newTok =>
      cases disable_rl with
      | false =>
        simp at h
        obtain ⟨h1, h2⟩ := h
        subst h2
        exact ⟨rfl, by rw [h1]⟩
      | true =>
        cases rlOk with
        | false => simp [disable_ratelimiting] at h
        | true =>
          simp [disable_ratelimiting] at h
          obtain ⟨h1, h2⟩ := h
          subst h2
          exact ⟨rfl, by rw [h1]⟩

/-- Claim C6, witness: registering `@User:localhost` against a handle
holding the admin token "admin" returns the new token "new" and leaves
"admin" on the handle. -/
theorem c6_register_restores_access_token_witness :
    (⟨"admin".data, none, none⟩ : ClientState).access_token
        = (⟨"admin".data, none, none⟩ : ClientState).access_token
    ∧ (RegisterResult.ok "new".data) = RegisterResult.ok "new".data :=
  c6_register_restores_access_token ⟨"admin".data, none, none⟩
    "@User:localhost".data true (RegisterResult.ok "new".data) true 200 []
    "new".data ⟨"admin".data, none, none⟩ rfl

/-- Claim C7, counterexample: the identifier `@a@B:c` parses (by the
repository's own parser) to the local part `a@B`, which contains the
uppercase character 'B', yet `invite` does not reject it: the code checks
`user_id.split("@")[1]`, which for this identifier is just "a", so the
invite proceeds and network calls are issued. -/
theorem c7_invite_lowercase_counterexample :
    parse_matrix_id "@a@B:c".data = .ok ("a@B".data, "c".data)
    ∧ ('B' ∈ "a@B".data ∧ 'B'.isUpper = true)
    ∧ (invite "@a@B:c".data "!room:x".data true SimpleResult.ok
        (StateEventResult.ok []) SimpleResult.ok).1 = .ok ()
    ∧ (invite "@a@B:c".data "!room:x".data true SimpleResult.ok
        (StateEventResult.ok []) SimpleResult.ok).2 ≠ [] :=
  ⟨rfl, by decide, rfl, by decide⟩

/-- Claim C7, amended: for every user id of the form
`@<local>:<domain>` whose local part contains no '@' of its own,
an uppercase character in the local part makes
`invite(user_id, room_id, admin=true)` raise the fixed
"Matrix ids must be lowercase." failure with no network call issued. -/
theorem c7_invite_uppercase_local_rejected (l dom room : Str) (c : Char)
    (inviteResp putResp : SimpleResult) (stateResp : StateEventResult)
    (hat : l.all (fun x => x != '@') = true)
    (hmem : c ∈ l) (hup : c.isUpper = true) :
    invite ('@' :: (l ++ ':' :: dom)) room true inviteResp stateResp putResp
      = (.error (.exception "Matrix ids must be lowercase.".data), []) := by
  have hsplit : (pySplitChar '@' ('@' :: (l ++ ':' :: dom))).get? 1
      = some ((l ++ ':' :: dom).takeWhile (fun x => x != '@')) := by
    have h0 : pySplitChar '@' ('@' :: (l ++ ':' :: dom))
        = [] :: pySplitChar '@' (l ++ ':' :: dom) := by
      simp [pySplitChar]
    rw [h0, List.get?_cons_succ]
    exact pySplitChar_get_zero '@' (l ++ ':' :: dom)
  have hseg : (l ++ ':' :: dom).takeWhile (fun x => x != '@')
      = l ++ (':' :: dom).takeWhile (fun x => x != '@') :=
    takeWhile_append_all l (':' :: dom) hat
  have hlow : pyIsLower ((l ++ ':' :: dom).takeWhile (fun x => x != '@')) = false := by
    rw [hseg]
    have hmem' : c ∈ l ++ (':' :: dom).takeWhile (fun x => x != '@') :=
      List.mem_append_left _ hmem
    have hfail : (fun x => !x.isUpper) c = false := by simp [hup]
    have hall := all_eq_false_of_mem (p := fun x => !x.isUpper) hmem' hfail
    unfold pyIsLower
    rw [hall, Bool.and_false]
  unfold invite
  rw [hsplit]
  simp [hlow]

/-- Claim C7, witness for the amended theorem: inviting `@User:localhost`
as admin fails at once with the lowercase message and no network call. -/
theorem c7_invite_uppercase_local_rejected_witness :
    invite ('@' :: ("User".data ++ ':' :: "localhost".data)) "!room:x".data true
        SimpleResult.ok (StateEventResult.ok []) SimpleResult.ok
      = (.error (.exception "Matrix ids must be lowercase.".data), []) :=
  c7_invite_uppercase_local_rejected "User".data "localhost".data "!room:x".data 'U'
    SimpleResult.ok SimpleResult.ok (StateEventResult.ok [])
    (by decide) (by decide) (by decide)

/-- Claim C8, counterexample: `@@alice:example.com` has two leading '@'
characters, so it does not match the claim's pattern (exactly one leading
'@'), yet `parse_matrix_id` does not raise: the regex `^@([^:]+):([^:]+)$`
lets the local-part group absorb the second '@' and the call returns
`("@alice", "example.com")`. -/
theorem c8_parse_matrix_id_counterexample :
    specIdPatternMatches "@@alice:example.com".data = false
    ∧ parse_matrix_id "@@alice:example.com".data
        = .ok ("@alice".data, "example.com".data) :=
  ⟨rfl, rfl⟩

/-- Claim C8, amended: `parse_matrix_id` succeeds, returning the pair
(localpart, domain), exactly on the strings of the form
'@' ++ localpart ++ ':' ++ domain with both parts non-empty and
colon-free — the localpart may itself contain further '@' characters —
and on every other string it raises InvalidMatrixIdException (carrying
the offending identifier). -/
theorem c8_parse_matrix_id_amended (s a b : Str) :
    (parse_matrix_id s = .ok (a, b)
      ↔ s = '@' :: (a ++ ':' :: b) ∧ a ≠ [] ∧ b ≠ []
        ∧ a.all (fun c => c != ':') = true ∧ b.all (fun c => c != ':') = true)
    ∧ (∀ e, parse_matrix_id s = .error e → e = .invalidMatrixId s) := by
  constructor
  · constructor
    · intro h
      cases s with
      | nil => cases h
      | cons c₀ rest =>
        by_cases hc₀ : c₀ = '@'
        · subst hc₀
          rw [show parse_matrix_id ('@' :: rest)
              = (let a := rest.takeWhile (fun c => c != ':')
                 match rest.dropWhile (fun c => c != ':') with
                 | c :: b =>
                   if c == ':' && !a.isEmpty && !b.isEmpty && b.all (fun x => x != ':') then
                     .ok (a, b)
                   else .error (.invalidMatrixId ('@' :: rest))
                 | [] => .error (.invalidMatrixId ('@' :: rest))) from by
            simp [parse_matrix_id]] at h
          cases hd : rest.dropWhile (fun c => c != ':') with
          | nil => rw [hd] at h; cases h
          | cons c bb =>
            rw [hd] at h
            simp only [] at h
            by_cases hcond : (c == ':' && !(rest.takeWhile (fun c => c != ':')).isEmpty
                && !bb.isEmpty && bb.all (fun x => x != ':')) = true
            · rw [if_pos hcond] at h
              simp only [Except.ok.injEq, Prod.mk.injEq] at h
              obtain ⟨ha, hb⟩ := h
              simp only [Bool.and_eq_true, beq_iff_eq] at hcond
              obtain ⟨⟨⟨hc, hae⟩, hbe⟩, hball⟩ := hcond
              subst hc
              refine ⟨?_, ?_, ?_, ?_, ?_⟩
              · rw [← List.takeWhile_append_dropWhile (p := fun c => c != ':') (l := rest),
                  hd, ha, hb]
              · subst ha
                intro hnil
                rw [hnil] at hae
                cases hae
              · subst hb
                intro hnil
                rw [hnil] at hbe
                cases hbe
              · subst ha
                exact all_takeWhile _ rest
              · subst hb
                exact hball
            · rw [if_neg hcond] at h
              cases h
        · have : parse_matrix_id (c₀ :: rest)
              = .error (.invalidMatrixId (c₀ :: rest)) := by
            simp [parse_matrix_id, hc₀]
          rw [this] at h
          cases h
    · rintro ⟨hs, ha, hb, haall, hball⟩
      subst hs
      have ht : (a ++ ':' :: b).takeWhile (fun c => c != ':') = a := by
        rw [takeWhile_append_all a (':' :: b) haall]
        simp [List.takeWhile_cons]
      have hd : (a ++ ':' :: b).dropWhile (fun c => c != ':') = ':' :: b := by
        rw [dropWhile_append_all a (':' :: b) haall]
        simp [List.dropWhile_cons]
      have hae : a.isEmpty = false := by
        cases a with
        | nil => exact absurd rfl ha
        | cons x xs => rfl
      have hbe : b.isEmpty = false := by
        cases b with
        | nil => exact absurd rfl hb
        | cons x xs => rfl
      simp [parse_matrix_id, ht, hd, hae, hbe, hball]
  · intro e h
    cases s with
    | nil =>
      cases h
      rfl
    | cons c₀ rest =>
      by_cases hc₀ : c₀ = '@'
      · subst hc₀
        rw [show parse_matrix_id ('@' :: rest)
            = (let a := rest.takeWhile (fun c => c != ':')
               match rest.dropWhile (fun c => c != ':') with
               | c :: b =>
                 if c == ':' && !a.isEmpty && !b.isEmpty && b.all (fun x => x != ':') then
                   .ok (a, b)
                 else .error (.invalidMatrixId ('@' :: rest))
               | [] => .error (.invalidMatrixId ('@' :: rest))) from by
          simp [parse_matrix_id]] at h
        cases hd : rest.dropWhile (fun c => c != ':') with
        | nil =>
          rw [hd] at h
          cases h
          rfl
        | cons c bb =>
          rw [hd] at h
          simp only [] at h
          by_cases hcond : (c == ':' && !(rest.takeWhile (fun c => c != ':')).isEmpty
              && !bb.isEmpty && bb.all (fun x => x != ':')) = true
          · rw [if_pos hcond] at h
            cases h
          · rw [if_neg hcond] at h
            cases h
            rfl
      · have : parse_matrix_id (c₀ :: rest)
            = .error (.invalidMatrixId (c₀ :: rest)) := by
          simp [parse_matrix_id, hc₀]
        rw [this] at h
        cases h
        rfl

/-- Claim C9: constructing a scoped MatrixClient with no explicit
homeserver URL and no explicit matrix id while the MATRIX_HOMESERVER_URL
and MATRIX_ID environment variables are both unset raises KeyError (whose
message names MATRIX_HOMESERVER_URL); the constructor performs no network
activity (its embedding takes no network oracle at all). -/
theorem c9_matrix_client_requires_configuration
    (access_token room_id envAccess : Option Str) (max_timeouts : Nat) :
    MatrixClient_init none access_token none room_id max_timeouts
        ⟨none, none, envAccess⟩
      = .error (.keyError matrixClientKeyErrorMsg)
    ∧ listContains "MATRIX_HOMESERVER_URL".data matrixClientKeyErrorMsg = true := by
  exact ⟨rfl, by decide⟩

/-- Claim C10: whenever `get_room_invites` returns successfully, the
client's `next_batch` cursor afterwards equals its value before the call:
the cursor the internal sync installed is overwritten with the remembered
one.  (On a sync error the method raises before restoring it.) -/
theorem c10_room_invites_preserves_next_batch (st : ClientState)
    (resp : SyncResult) (invites : List Str) (st' : ClientState)
    (h : (get_room_invites st resp).1 = .ok (invites, st')) :
    st'.next_batch = st.next_batch := by
  cases resp with
  | error m => simp [get_room_invites] at h
  | ok inv nb =>
    simp [get_room_invites] at h
    rw [← h.2]

/-- Claim C10, witness: a sync that installs the cursor "batch1" on a
client remembering "batch0" still leaves "batch0" on the client after a
successful get_room_invites. -/
theorem c10_room_invites_preserves_next_batch_witness :
    (⟨"tok".data, none, some "batch0".data⟩ : ClientState).next_batch
      = (⟨"tok".data, none, some "batch0".data⟩ : ClientState).next_batch :=
  c10_room_invites_preserves_next_batch
    ⟨"tok".data, none, some "batch0".data⟩
    (SyncResult.ok ["!a:x".data] (some "batch1".data))
    ["!a:x".data] ⟨"tok".data, none, some "batch0".data⟩ rfl

end Fractal
